import Mathlib

/-!
Verification of the schema-guided query planning and SQL compilation engine
(`app/services/table_analytics.py`, `app/services/sql_templates.py`,
`app/services/query_router.py`) against its natural-language specification.

The Python code is shallowly embedded: every definition below mirrors a
function of the source (its Python name is given in each doc comment), with
Python strings as `String`, Python ints as `Int`/`Nat`, JSON values as small
inductive types, and uncaught Python exceptions as `Except.error`.
-/

namespace Sqope

/-- Single-quote character (ASCII 39), used when building SQL text. -/
def sq : String := String.singleton (Char.ofNat 39)

/-- `listStarts pat l` : does `l` start with `pat`? (list analogue of Python
`str.startswith` on the decomposed characters). -/
def listStarts : List Char → List Char → Bool
  | [], _ => true
  | _ :: _, [] => false
  | a :: as, b :: bs => a == b && listStarts as bs

/-- `listHas pat l` : does `pat` occur as a contiguous run inside `l`?
(Models Python's substring operator `pat in l`.) -/
def listHas (pat : List Char) : List Char → Bool
  | [] => pat.isEmpty
  | c :: cs => listStarts pat (c :: cs) || listHas pat cs

/-- Python `needle in hay` on strings. -/
def pyIn (needle hay : String) : Bool := listHas needle.toList hay.toList

/-- Python `s.startswith(pre)`. -/
def pyStarts (pre s : String) : Bool := listStarts pre.toList s.toList

/-- Python whitespace as used by `str.strip()`. -/
def pyWs (c : Char) : Bool :=
  c == ' ' || c == Char.ofNat 9 || c == Char.ofNat 10 || c == Char.ofNat 13
    || c == Char.ofNat 11 || c == Char.ofNat 12

/-- Python `s.strip()`. -/
def pyStrip (s : String) : String :=
  ((s.toList.dropWhile pyWs).reverse.dropWhile pyWs).reverse.asString

/-- Python `s.lower()` (ASCII; the source only lowercases ASCII headers and
questions). -/
def pyLower (s : String) : String := (s.toList.map Char.toLower).asString

/-- Python `s.upper()` (ASCII). -/
def pyUpper (s : String) : String := (s.toList.map Char.toUpper).asString

/-- Regex word character (`\w`): letters, digits, underscore. -/
def isWordChar (c : Char) : Bool := c.isAlphanum || c == '_'

/-- `\b` boundary before the current position, given the previous character
(`none` at the start of the string).  The next character is a word character
in every pattern we model, so the boundary holds iff the previous character
is absent or not a word character. -/
def boundaryBefore : Option Char → Bool
  | none => true
  | some c => !isWordChar c

/-- `\b` boundary after a word character, looking at the rest of the string. -/
def boundaryAfter : List Char → Bool
  | [] => true
  | c :: _ => !isWordChar c

/-- One-position match of `YEAR_RE = \b(19|20)\d{2}\b`. -/
def yearAt (prev : Option Char) : List Char → Bool
  | a :: b :: c :: d :: rest =>
      boundaryBefore prev
        && ((a == '1' && b == '9') || (a == '2' && b == '0'))
        && c.isDigit && d.isDigit && boundaryAfter rest
  | _ => false

/-- `YEAR_RE.search` over a character list (any position matches). -/
def yearSearchAux (prev : Option Char) : List Char → Bool
  | [] => false
  | c :: cs => yearAt prev (c :: cs) || yearSearchAux (some c) cs

/-- `bool(YEAR_RE.search(s))` for `YEAR_RE = \b(19|20)\d{2}\b`. -/
def yearSearch (s : String) : Bool := yearSearchAux none s.toList

/-- One-position match of `_Q_RE = \bq([1-4])\b` (case-insensitive). -/
def qtagAt (prev : Option Char) : List Char → Bool
  | a :: b :: rest =>
      boundaryBefore prev && (a == 'q' || a == 'Q')
        && (b == '1' || b == '2' || b == '3' || b == '4') && boundaryAfter rest
  | _ => false

/-- `_Q_RE.search` existence over a character list. -/
def qSearchAux (prev : Option Char) : List Char → Bool
  | [] => false
  | c :: cs => qtagAt prev (c :: cs) || qSearchAux (some c) cs

/-- `bool(_Q_RE.search(s))` for `_Q_RE = \bq([1-4])\b` (re.I). -/
def qSearch (s : String) : Bool := qSearchAux none s.toList

/-- First captured digit of `_Q_RE.search(s)` (leftmost match), or `none`. -/
def qFindAux (prev : Option Char) : List Char → Option Char
  | [] => none
  | c :: cs =>
      match c :: cs with
      | a :: b :: rest =>
          if boundaryBefore prev && (a == 'q' || a == 'Q')
              && (b == '1' || b == '2' || b == '3' || b == '4')
              && boundaryAfter rest then
            some b
          else qFindAux (some c) cs
      | _ => qFindAux (some c) cs

/-- `m.group(1)` of the leftmost `_Q_RE` match in `s`, when it exists. -/
def qFind (s : String) : Option Char := qFindAux none s.toList

/-- Worker for `replQuarter`, structurally recursive on a fuel bound (the
fuel never runs out when it starts at the list length, since every step
consumes at least one character). -/
def replQuarterFuel : Nat → List Char → List Char
  | 0, l => l
  | _ + 1, [] => []
  | fuel + 1, c :: cs =>
      if listStarts "quarter".toList (c :: cs) then
        'q' :: replQuarterFuel fuel (cs.drop 6)
      else c :: replQuarterFuel fuel cs

/-- Python `s.replace("quarter", "q")` (left-to-right, non-overlapping). -/
def replQuarter (l : List Char) : List Char := replQuarterFuel l.length l

/-- `s.replace("quarter", "q")` on strings. -/
def pyReplQuarter (s : String) : String := (replQuarter s.toList).asString

/-- Python `s.replace(a, b)` for single characters (used for `"_" -> " "`). -/
def pyReplChar (a b : Char) (s : String) : String :=
  (s.toList.map (fun c => if c == a then b else c)).asString

/-- `re.match(r"^-?\d+(\.\d+)?$", ...)` on a character list. -/
def decimalMatch (l : List Char) : Bool :=
  let l := match l with | '-' :: t => t | t => t
  let ds := l.takeWhile Char.isDigit
  let rest := l.dropWhile Char.isDigit
  !ds.isEmpty &&
    (match rest with
     | [] => true
     | '.' :: r =>
         !(r.takeWhile Char.isDigit).isEmpty && (r.dropWhile Char.isDigit).isEmpty
     | _ => false)

/-- `_looks_like_number`: strip, drop commas, keep only `[0-9.-]`, then match
`^-?\d+(\.\d+)?$`. -/
def looksLikeNumber (s : String) : Bool :=
  let st := pyStrip s
  if st == "" then false
  else
    let s2 := ((st.toList.filter (fun c => c != ',')).filter
      (fun c => c.isDigit || c == '.' || c == '-'))
    decimalMatch s2

/-- Consume exactly `n` digits, returning the remaining characters. -/
def takeDigits : Nat → List Char → Option (List Char)
  | 0, l => some l
  | n + 1, c :: cs => if c.isDigit then takeDigits n cs else none
  | _ + 1, [] => none

/-- Consume one expected character. -/
def chomp (c : Char) : List Char → Option (List Char)
  | a :: r => if a == c then some r else none
  | [] => none

/-- `DATE_LIKE_RE = ^\s*\d{4}-\d{2}-\d{2}([ T]\d{2}:\d{2}:\d{2}(\.\d+)?)?\s*$`,
matched against an already-stripped string (so the `\s*` ends are empty). -/
def dateCore (l : List Char) : Bool :=
  match ((((takeDigits 4 l).bind (chomp '-')).bind (takeDigits 2)).bind
      (chomp '-')).bind (takeDigits 2) with
  | none => false
  | some rest =>
      match rest with
      | [] => true
      | c :: r =>
          (c == ' ' || c == 'T') &&
            (match ((((takeDigits 2 r).bind (chomp ':')).bind (takeDigits 2)).bind
                (chomp ':')).bind (takeDigits 2) with
             | none => false
             | some r2 =>
                 match r2 with
                 | [] => true
                 | '.' :: r3 =>
                     !(r3.takeWhile Char.isDigit).isEmpty
                       && (r3.dropWhile Char.isDigit).isEmpty
                 | _ => false)

/-- Month-name tokens checked by `_looks_like_date`. -/
def monthTokens : List String :=
  ["jan", "feb", "mar", "apr", "may", "jun", "jul", "aug", "sep", "oct", "nov", "dec"]

/-- `_looks_like_date`. -/
def looksLikeDate (s : String) : Bool :=
  let st := pyStrip s
  if st == "" then false
  else if dateCore st.toList then true
  else monthTokens.any (fun m => pyIn m (pyLower st))

/-- A sampled table row: a JSON object mapping column names to string values. -/
def Row := List (String × String)

/-- Python `r.get(h, "")` on a row dict. -/
def rget (r : Row) (k : String) : String :=
  match r.find? (fun p => p.1 == k) with
  | some p => p.2
  | none => ""

/-- Association-list lookup, modelling Python `dict.get(k)`.  The dicts built
by this code never assign two different values to one key, so first-match
lookup agrees with Python's last-write-wins semantics. -/
def dget (l : List (String × String)) (k : String) : Option String :=
  (l.find? (fun p => p.1 == k)).map Prod.snd

/-- Python `dict.get(k, d)`. -/
def dgetD (l : List (String × String)) (k : String) (d : String) : String :=
  (dget l k).getD d

/-- Temporal keywords of `_infer_kinds` rule 2. -/
def temporalKeywords : List String := ["date", "year", "month", "quarter", "week", "day"]

/-- `vals` in `_infer_kinds`: the column's non-empty sampled values,
truncated to 8 (`col_vals[h][:8]`). -/
def sampledVals (samples : List Row) (h : String) : List String :=
  (samples.filterMap fun r =>
    let v := rget r h
    if v == "" then none else some v).take 8

/-- The per-column classification of `_infer_kinds` (body of its `for h` loop):
collect the column's non-empty sampled values, truncate to 8, then apply the
five rules in priority order. -/
def inferKindOne (samples : List Row) (h : String) : String :=
  let vals := sampledVals samples h
  let name := pyLower h
  match qFind name with
  | some d => "period_q" ++ String.singleton d
  | none =>
      if temporalKeywords.any (fun t => pyIn t name) then "temporal"
      else if !vals.isEmpty && vals.all looksLikeNumber then "number"
      else if !vals.isEmpty
          && decide (max 2 (vals.length / 2) ≤ (vals.countP (looksLikeDate ·))) then
        "temporal"
      else "text"

/-- `_infer_kinds(headers, samples)` as an association list over the headers. -/
def inferKinds (headers : List String) (samples : List Row) : List (String × String) :=
  headers.map (fun h => (h, inferKindOne samples h))

/-- A JSON filter value: a scalar string, a list of strings, or JSON null. -/
inductive FilterVal where
  | s (v : String)
  | vlist (vs : List String)
  | vnone
deriving DecidableEq, Repr

/-- A candidate filter `{col_id, op, value}` from the drafted plan. -/
structure CFilter where
  col_id : Int
  op : String
  value : FilterVal
deriving DecidableEq, Repr

/-- A candidate aggregate `{func, col_id, as}` from the drafted plan. -/
structure CAgg where
  func : String
  col_id : Option Int
  aliasName : Option String
deriving DecidableEq, Repr

/-- An `order_by` entry: either `{"column": name, "dir": d}` or
`{"col_id": id, "dir": d}` (a missing `"dir"` is `none`). -/
inductive OBE where
  | col (column : String) (dir : Option String)
  | cid (col_id : Int) (dir : Option String)
deriving DecidableEq, Repr

/-- The candidate plan dict as assembled by `_make_plan`: parsed JSON fields
plus the `table` entry and the `_columns_index`/`_numeric_ids`/`_temporal_ids`/
`_q` metadata.  `error` is set (and the rest defaulted) when no JSON object
was found in the collaborator's reply. -/
structure CPlan where
  error : Option String
  fileKey : String
  tableIndex : Int
  filters : List CFilter
  group_by : List Int
  aggregates : List CAgg
  order_by : List OBE
  limit : Int
  columnsIndex : List String
  numericIds : List Int
  temporalIds : List Int
  q : String
deriving DecidableEq, Repr

/-- A normalized filter (the code adds the `column` key). -/
structure NFilter where
  col_id : Int
  op : String
  value : FilterVal
  column : String
deriving DecidableEq, Repr

/-- A normalized aggregate (the code adds `column` and defaults `as`). -/
structure NAgg where
  func : String
  col_id : Option Int
  column : Option String
  aliasName : String
deriving DecidableEq, Repr

/-- The plan after `_validate_and_normalize` succeeded (`group_by` now holds
column names). -/
structure NPlan where
  fileKey : String
  tableIndex : Int
  filters : List NFilter
  group_by : List String
  aggregates : List NAgg
  order_by : List OBE
  limit : Int
  columnsIndex : List String
deriving DecidableEq, Repr

/-- `ALLOWED_FUNCS`. -/
def ALLOWED_FUNCS : List String := ["sum", "avg", "count", "min", "max"]

/-- `ALLOWED_OPS`, verbatim from the source.  Note the third member is the
two-character string `" >"` (a space followed by `>`), exactly as written at
`table_analytics.py:169`. -/
def ALLOWED_OPS : List String :=
  [">=", "<=", " >", "<", "=", "!=", "in", "between", "contains"]

/-- `_id_to_col`: look the integer id up in the `{0..n-1 -> header}` dict. -/
def idToCol (headers : List String) (cid : Int) : Option String :=
  if cid < 0 then none else headers[cid.toNat]?

/-- Python truthiness of an optional string (`None` and `""` are falsy). -/
def truthyS : Option String → Bool
  | some s => s != ""
  | none => false

/-- Python f-string rendering of an optional string (`None` prints "None"). -/
def optStr : Option String → String
  | some s => s
  | none => "None"

/-- `_numeric_ids` as computed in `_make_plan`. -/
def numericIdsOf (headers : List String) (kinds : List (String × String)) : List Int :=
  ((List.range headers.length).filter (fun i =>
    dget kinds (headers.getD i "") == some "number")).map Int.ofNat

/-- `_temporal_ids` as computed in `_make_plan`. -/
def temporalIdsOf (headers : List String) (kinds : List (String × String)) : List Int :=
  ((List.range headers.length).filter (fun i =>
    pyStarts "period_q" (dgetD kinds (headers.getD i "") "")
      || dget kinds (headers.getD i "") == some "temporal")).map Int.ofNat

/-- `a.get("as") or f"{a['func']}_{a['column'] or 'rows'}"`. -/
def aliasDefault (given : Option String) (func : String) (column : Option String) : String :=
  let dflt := func ++ "_" ++
    (match column with
     | some c => if c == "" then "rows" else c
     | none => "rows")
  match given with
  | some s => if s == "" then dflt else s
  | none => dflt

/-- The aggregate checks and normalization of `_validate_and_normalize`
(lines 215-229), for one aggregate. -/
def normAgg (numericIds : List Int) (headers : List String) (a : CAgg) :
    Except String NAgg :=
  if !(ALLOWED_FUNCS.contains a.func) then .error "bad_agg_func"
  else if a.func != "count" then
    match a.col_id with
    | none => .error "missing_agg_col_id"
    | some cid =>
        if !(numericIds.contains cid) then
          .error ("agg_on_non_numeric:" ++ optStr (idToCol headers cid))
        else
          let col? := idToCol headers cid
          if !truthyS col? then .error ("bad_agg_col_id:" ++ toString cid)
          else
            let col := col?.getD ""
            .ok { func := a.func, col_id := some cid, column := some col,
                  aliasName := aliasDefault a.aliasName a.func (some col) }
  else
    .ok { func := a.func, col_id := a.col_id, column := none,
          aliasName := aliasDefault a.aliasName a.func none }

/-- The temporal-guardrail test on a filter value (lines 248-254): a year or
quarter pattern in the single value, or in any element of a list value. -/
def isTemporalVal : FilterVal → Bool
  | .vlist vs => vs.any (fun v => yearSearch v || qSearch (pyReplQuarter v))
  | .s v => yearSearch v || qSearch (pyReplQuarter v)
  | .vnone => false

/-- The per-filter keep/drop decision of lines 244-258 (after the operator
check): drop when the column does not resolve, drop when the value looks
temporal but the column is not a temporal/period column, else keep with the
resolved column name attached. -/
def keepFilter (headers : List String) (temporalIds : List Int) (f : CFilter) :
    Option NFilter :=
  let col? := idToCol headers f.col_id
  if !truthyS col? then none
  else if isTemporalVal f.value && !(temporalIds.contains f.col_id) then none
  else some { col_id := f.col_id, op := f.op, value := f.value, column := col?.getD "" }

/-- The filter loop of `_validate_and_normalize` (lines 240-258): each
filter's operator is checked against `ALLOWED_OPS` (failing the whole plan
with `bad_filter_op`), then the keep/drop decision is applied. -/
def normFilters (headers : List String) (temporalIds : List Int) :
    List CFilter → Except String (List NFilter)
  | [] => .ok []
  | f :: rest =>
      if !(ALLOWED_OPS.contains f.op) then .error "bad_filter_op"
      else
        match keepFilter headers temporalIds f with
        | none => normFilters headers temporalIds rest
        | some nf =>
            match normFilters headers temporalIds rest with
            | .error e => .error e
            | .ok l => .ok (nf :: l)

/-- The aggregate loop of `_validate_and_normalize` (lines 215-229): each
aggregate is checked and normalized in order; the first failure aborts. -/
def normAggs (numericIds : List Int) (headers : List String) :
    List CAgg → Except String (List NAgg)
  | [] => .ok []
  | a :: rest =>
      match normAgg numericIds headers a with
      | .error e => .error e
      | .ok na =>
          match normAggs numericIds headers rest with
          | .error e => .error e
          | .ok l => .ok (na :: l)

/-- Words of `_wants_scalar`. -/
def scalarWords : List String :=
  ["max", "maximum", "min", "minimum", "sum", "total", "avg", "average", "mean",
   "count", "top 1", "largest", "smallest"]

/-- Per-group words of `_wants_scalar`. -/
def perGroupWords : List String := [" per ", " by ", " each "]

/-- `_wants_scalar`. -/
def wantsScalar (q : String) : Bool :=
  let ql := pyLower q
  scalarWords.any (fun w => pyIn w ql) && !(perGroupWords.any (fun x => pyIn x ql))

/-- `_validate_and_normalize`: early error return, aggregate normalization,
group-by id-to-name mapping (unresolvable ids silently dropped), the filter
loop, then the scalar-ask override. -/
def validateAndNormalize (p : CPlan) : Except String NPlan :=
  match p.error with
  | some e => .error e
  | none =>
      match normAggs p.numericIds p.columnsIndex p.aggregates with
      | .error e => .error e
      | .ok aggs =>
          let gb := p.group_by.filterMap (fun gid =>
            let col? := idToCol p.columnsIndex gid
            if truthyS col? then some (col?.getD "") else none)
          match normFilters p.columnsIndex p.temporalIds p.filters with
          | .error e => .error e
          | .ok fs =>
              let base : NPlan :=
                { fileKey := p.fileKey, tableIndex := p.tableIndex, filters := fs,
                  group_by := gb, aggregates := aggs, order_by := p.order_by,
                  limit := p.limit, columnsIndex := p.columnsIndex }
              match aggs with
              | a :: _ =>
                  if wantsScalar p.q then
                    let scal : NPlan := { base with
                      group_by := [], order_by := [OBE.col a.aliasName (some "desc")],
                      limit := 1 }
                    .ok scal
                  else .ok base
              | [] => .ok base

/-- A bind-parameter value: the JSON value placed in the parameter map. -/
inductive PVal where
  | pstr (s : String)
  | pint (n : Int)
  | plist (vs : List String)
  | pnone
deriving DecidableEq, Repr

/-- The raw filter value as appended to `dyn` for comparison operators. -/
def fvToP : FilterVal → PVal
  | .s v => .pstr v
  | .vlist vs => .plist vs
  | .vnone => .pnone

/-- Python `str(...)`/f-string rendering of a JSON filter value (lists render
with single-quoted elements, as Python prints a list of strings). -/
def fvStr : FilterVal → String
  | .s v => v
  | .vlist vs => "[" ++ String.intercalate ", " (vs.map (fun x => sq ++ x ++ sq)) ++ "]"
  | .vnone => "None"

/-- `_qid`: double-quote an identifier, doubling embedded double quotes. -/
def qid (s : String) : String :=
  "\"" ++ (s.toList.flatMap (fun c => if c == '"' then ['"', '"'] else [c])).asString ++ "\""

/-- `_col_num`: the comma/symbol-tolerant numeric cast expression. -/
def colNum (col : String) : String :=
  "(REGEXP_REPLACE(REGEXP_REPLACE(data->>" ++ sq ++ col ++ sq ++ ", " ++ sq ++ "[,]"
    ++ sq ++ ", " ++ sq ++ sq ++ "), " ++ sq ++ "[^0-9.-]" ++ sq ++ ", " ++ sq ++ sq
    ++ ", " ++ sq ++ "g" ++ sq ++ "))::numeric"

/-- `_col_txt`: the plain text-extraction expression. -/
def colTxt (col : String) : String :=
  "(data->>" ++ sq ++ col ++ sq ++ ")"

/-- The comparison-operator set of the filter loop in `_build_sql`
(line 356; note it contains `">"` with no space, unlike `ALLOWED_OPS`). -/
def cmpOps : List String := [">=", "<=", ">", "<", "=", "!="]

/-- `_op_sql` (`.get(op, None)` rendered into the f-string). -/
def opSql (op : String) : String :=
  if op == "=" then "="
  else if op == "!=" then "<>"
  else if op == ">=" then ">="
  else if op == "<=" then "<="
  else if op == ">" then ">"
  else if op == "<" then "<"
  else "None"

/-- `f"p{i}"`: the position-indexed bind-parameter name. -/
def pname (i : Nat) : String := "p" ++ Nat.repr i

/-- The values one filter contributes to the parameter list `dyn`: the raw
value for comparison operators, the wildcard-wrapped value for `contains`,
every element for `in`, and both bounds for `between` (nothing otherwise). -/
def filterParams (f : NFilter) : List PVal :=
  if cmpOps.contains f.op then [fvToP f.value]
  else if f.op == "contains" then [PVal.pstr ("%" ++ fvStr f.value ++ "%")]
  else if f.op == "in" then
    match f.value with
    | .vlist vs => vs.map PVal.pstr
    | _ => []
  else if f.op == "between" then
    match f.value with
    | .vlist vs => if vs.length == 2 then vs.map PVal.pstr else []
    | _ => []
  else []

/-- One iteration of the filter loop of `_build_sql` (lines 354-368): the
`WHERE` fragments appended and the values appended to `dyn`, given that
`dyn` currently holds `n` values. -/
def filterPart (f : NFilter) (n : Nat) : List String × List PVal :=
  if cmpOps.contains f.op then
    ([colNum f.column ++ " " ++ opSql f.op ++ " :" ++ pname n], [fvToP f.value])
  else if f.op == "contains" then
    ([colTxt f.column ++ " ILIKE :" ++ pname n],
     [PVal.pstr ("%" ++ fvStr f.value ++ "%")])
  else if f.op == "in" then
    match f.value with
    | .vlist vs =>
        ([colTxt f.column ++ " IN (" ++
            String.intercalate "," ((List.range vs.length).map (fun i => ":" ++ pname (n + i)))
            ++ ")"],
         vs.map PVal.pstr)
    | _ => ([], [])
  else if f.op == "between" then
    match f.value with
    | .vlist vs =>
        if vs.length == 2 then
          ([colNum f.column ++ " BETWEEN :" ++ pname n ++ " AND :" ++ pname (n + 1)],
           vs.map PVal.pstr)
        else ([], [])
    | _ => ([], [])
  else ([], [])

/-- The whole filter loop, threading the running length of `dyn`. -/
def filtLoop : List NFilter → Nat → List String × List PVal
  | [], _ => ([], [])
  | f :: rest, n =>
      let pv := filterPart f n
      let tail := filtLoop rest (n + pv.2.length)
      (pv.1 ++ tail.1, pv.2 ++ tail.2)

/-- First aggregate whose `col_id` equals `cid`, if any (lines 308-315). -/
def findAggAlias (aggs : List NAgg) (cid : Int) : Option String :=
  match aggs.find? (fun a =>
    match a.col_id with
    | some c => c == cid
    | none => false) with
  | some a => some a.aliasName
  | none => none

/-- The `order_by` normalization of `_build_sql` (lines 292-325): name
entries pass through; id entries prefer a matching aggregate's alias, then
the header name, and are dropped when neither resolves to a truthy name. -/
def normOrderBy (colsIndex : List String) (aggs : List NAgg) :
    List OBE → List (String × String)
  | [] => []
  | OBE.col name d :: rest => (name, d.getD "desc") :: normOrderBy colsIndex aggs rest
  | OBE.cid cid d :: rest =>
      let tail := normOrderBy colsIndex aggs rest
      let headerFallback : List (String × String) :=
        match idToCol colsIndex cid with
        | some hn => if hn != "" then (hn, d.getD "desc") :: tail else tail
        | none => tail
      match findAggAlias aggs cid with
      | some al => if al != "" then (al, d.getD "desc") :: tail else headerFallback
      | none => headerFallback

/-- `build_select_query` from `sql_templates.py` (the caller passes at most
one `order_by` entry, modelled as an optional `(column, dir)` pair). -/
def build_select_query (sel : List String) (whereParts : List String)
    (groupByExprs : List String) (orderBy : Option (String × String))
    (limit : Int) : String :=
  let sql := "SELECT " ++ String.intercalate ", " sel ++ " FROM table_rows WHERE "
      ++ String.intercalate " AND " whereParts
  let sql := if !groupByExprs.isEmpty then
      sql ++ " GROUP BY " ++ String.intercalate ", " groupByExprs
    else sql
  let sql := match orderBy with
    | some (c, d) => sql ++ " ORDER BY " ++ c ++ " " ++ pyUpper d
    | none => sql
  if limit != 0 then sql ++ " LIMIT " ++ toString limit else sql

/-- `_build_sql`: compile a validated plan to one SQL string and the
parameter map (an association list in insertion order: `fk`, `ti`, then one
`p{i}` entry per collected dynamic value). -/
def buildSql (p : NPlan) : String × List (String × PVal) :=
  let order_by := normOrderBy p.columnsIndex p.aggregates p.order_by
  let sel0 := p.group_by.map (fun g => colTxt g ++ " AS " ++ qid g)
  let gbExprs := p.group_by.map colTxt
  let selAgg := p.aggregates.map (fun a =>
    let func := pyUpper a.func
    if func == "COUNT" then "COUNT(*) AS " ++ qid a.aliasName
    else func ++ "(" ++ colNum (optStr a.column) ++ ") AS " ++ qid a.aliasName)
  let sel := sel0 ++ selAgg
  let sel := if sel.isEmpty then ["COUNT(*) AS count_rows"] else sel
  let fd := filtLoop p.filters 0
  let whereParts := ["file_key = :fk", "table_index = :ti"] ++ fd.1
  let obq : Option (String × String) :=
    match order_by with
    | [] => none
    | ob :: _ => some (qid ob.1, ob.2)
  let sql := build_select_query sel whereParts gbExprs obq p.limit
  (sql, ("fk", PVal.pstr p.fileKey) :: ("ti", PVal.pint p.tableIndex) ::
    fd.2.enum.map (fun x => (pname x.1, x.2)))

/-- A scalar value in a result row returned by SQL execution. -/
inductive RVal where
  | num (q : Rat)
  | str (s : String)
  | null
deriving DecidableEq, Repr

/-- A result row: mapping from column name or alias to a scalar value. -/
def ResultRow := List (String × RVal)

/-- `r.get(k)`: `none` when the key is missing or holds SQL NULL (Python
returns `None` in both cases, and every use in the source treats the two
identically). -/
def rvGet (r : ResultRow) (k : String) : Option RVal :=
  match r.find? (fun p => p.1 == k) with
  | some (_, RVal.null) => none
  | some (_, v) => some v
  | none => none

/-- Does the row dict contain the key (`k in row`)? -/
def hasKey (r : ResultRow) (k : String) : Bool := r.any (fun p => p.1 == k)

/-- Insert thousands separators into a reversed digit list (a comma before
every later group of three). -/
def groupRev : List Char → Nat → List Char
  | [], _ => []
  | c :: cs, i =>
      (if i != 0 && i % 3 == 0 then [','] else []) ++ c :: groupRev cs (i + 1)

/-- `f"{n:,}"` for a natural number. -/
def commaNat (n : Nat) : String :=
  ((groupRev (Nat.repr n).toList.reverse 0).reverse).asString

/-- `f"{i:,}"` for an integer. -/
def commaInt (i : Int) : String :=
  (if i < 0 then "-" else "") ++ commaNat i.natAbs

/-- Round to the nearest integer, ties to even (the rounding used by
Python's fixed-point float formatting; the binary-double representation is
abstracted to the exact rational). -/
def roundHalfEven (x : Rat) : Int :=
  let fl := x.floor
  let frac := x - fl
  if frac < 1 / 2 then fl
  else if 1 / 2 < frac then fl + 1
  else if fl % 2 == 0 then fl else fl + 1

/-- `f"{f:,.2f}"`: two decimals, thousands separators in the integer part. -/
def commaTwoDec (q : Rat) : String :=
  let scaled := roundHalfEven (q * 100)
  let a := scaled.natAbs
  (if q < 0 then "-" else "") ++ commaNat (a / 100) ++ "." ++
    (if a % 100 < 10 then "0" else "") ++ Nat.repr (a % 100)

/-- Python `float(s)` on a string: optional sign, decimal digits with an
optional fractional part, optional exponent.  (`inf`/`nan` and underscore
separators are not produced by this pipeline and are not modelled.) -/
def pyFloat? (s : String) : Option Rat :=
  let l := (pyStrip s).toList
  let (sgn, l) : Rat × List Char :=
    match l with
    | '-' :: t => (-1, t)
    | '+' :: t => (1, t)
    | t => (1, t)
  let ds := l.takeWhile Char.isDigit
  let r1 := l.dropWhile Char.isDigit
  let intVal : Rat := (ds.foldl (fun a c => 10 * a + (c.toNat - 48)) 0 : Nat)
  let body : Option (Rat × List Char) :=
    match r1 with
    | '.' :: r2 =>
        let fs := r2.takeWhile Char.isDigit
        if ds.isEmpty && fs.isEmpty then none
        else
          let fv : Rat := ((fs.foldl (fun a c => 10 * a + (c.toNat - 48)) 0 : Nat) : Rat) /
            ((10 : Rat) ^ fs.length)
          some (intVal + fv, r2.dropWhile Char.isDigit)
    | _ => if ds.isEmpty then none else some (intVal, r1)
  match body with
  | none => none
  | some (v, rest) =>
      match rest with
      | [] => some (sgn * v)
      | e :: r3 =>
          if e == 'e' || e == 'E' then
            let (esgn, r4) : Int × List Char :=
              match r3 with
              | '-' :: t => (-1, t)
              | '+' :: t => (1, t)
              | t => (1, t)
            let eds := r4.takeWhile Char.isDigit
            if eds.isEmpty || !(r4.dropWhile Char.isDigit).isEmpty then none
            else
              let ev : Nat := eds.foldl (fun a c => 10 * a + (c.toNat - 48)) 0
              some (sgn * v * ((10 : Rat) ^ (esgn * ev)))
          else none

/-- `_format_number(x)`: `float(x)` then integral values without decimals and
others to two decimals, both with thousands separators; any conversion
failure falls back to `str(x)` (so `None` renders as `"None"`). -/
def formatNumber : Option RVal → String
  | some (RVal.num q) => if q.den == 1 then commaInt q.num else commaTwoDec q
  | some (RVal.str s) =>
      match pyFloat? s with
      | some q => if q.den == 1 then commaInt q.num else commaTwoDec q
      | none => s
  | some RVal.null => "None"
  | none => "None"

/-- Python `str`/f-string rendering of an optional result value. -/
def rvShow : Option RVal → String
  | some (RVal.num q) => if q.den == 1 then toString q.num else commaTwoDec q
  | some (RVal.str s) => s
  | some RVal.null => "None"
  | none => "None"

/-- Python `s.capitalize()` (ASCII). -/
def pyCapitalize (s : String) : String :=
  match s.toList with
  | [] => ""
  | c :: cs => (c.toUpper :: cs.map Char.toLower).asString

/-- The display-name table of `_summarize_scalar`. -/
def prettyFn (f : String) : String :=
  if f == "max" then "Maximum"
  else if f == "min" then "Minimum"
  else if f == "sum" then "Sum"
  else if f == "avg" then "Average"
  else if f == "count" then "Count"
  else pyCapitalize f

/-- `(a.get("column") or "rows").replace("_", " ").strip()`. -/
def humanColumn (column : Option String) : String :=
  let c := match column with
    | some c => if c == "" then "rows" else c
    | none => "rows"
  pyStrip (pyReplChar '_' ' ' c)

/-- `_summarize_scalar`. -/
def summarizeScalar (plan : NPlan) (rows : List ResultRow) : Option String :=
  if rows.isEmpty || plan.aggregates.isEmpty || !plan.group_by.isEmpty then none
  else
    match plan.aggregates, rows with
    | a :: _, r :: _ =>
        match rvGet r a.aliasName with
        | none => none
        | some v =>
            some (prettyFn a.func ++ " of " ++ humanColumn a.column ++ ": " ++
              formatNumber (some v))
    | _, _ => none

/-- `_summarize_grouped`. -/
def summarizeGrouped (plan : NPlan) (rows : List ResultRow) : Option String :=
  if rows.isEmpty || plan.group_by.isEmpty then none
  else
    let a? := plan.aggregates.head?
    let lines := (rows.take 5).map (fun r =>
      let segs := plan.group_by.map (fun g =>
        pyStrip (pyReplChar '_' ' ' g) ++ ": " ++ rvShow (rvGet r g))
      let segs := segs ++
        (match a? with
         | some a =>
             [pyUpper a.func ++ " " ++ humanColumn a.column ++ ": " ++
               formatNumber (rvGet r a.aliasName)]
         | none => [])
      String.intercalate " | " segs)
    if lines.isEmpty then none
    else some ("Top results:\n" ++ String.intercalate "\n" (lines.map (fun ln => "- " ++ ln)))

/-- `agg_words` of `detect_type`. -/
def aggWords : List String :=
  ["sum", "total", "average", "avg", "mean", "median", "count", "max", "min",
   "top", "rank", "percentage", "percent", "%", "rate", "growth", "change"]

/-- `explain_words` of `detect_type`. -/
def explainWords : List String :=
  ["explain", "why", "insight", "insights", "interpret", "reason", "highlight", "analysis"]

/-- `compare_words` of `detect_type`. -/
def compareWords : List String :=
  ["between", "vs", "versus", "compare", "difference", "higher", "lower", "than"]

/-- `analytic_phrases` of `detect_type` (the third phrase contains an
apostrophe in the source). -/
def analyticPhrases : List String :=
  ["how many", "what is the average", "what" ++ sq ++ "s the average", "how much",
   "calculate", "compute", "what is the total"]

/-- `re.search(r"\b\d+(?:[\.,]\d+)?(%|\b)", ql)`: a maximal digit run starting
at a word boundary whose following character is absent or a non-word
character (`%`, `.` and `,` are all non-word, which settles the optional
group and the final alternation). -/
def numberLikeAux (prev : Option Char) : List Char → Bool
  | [] => false
  | c :: cs =>
      (c.isDigit && boundaryBefore prev && boundaryAfter (cs.dropWhile Char.isDigit))
        || numberLikeAux (some c) cs

/-- `number_like` in `detect_type`. -/
def numberLike (s : String) : Bool := numberLikeAux none s.toList

/-- The `quarter\s*\d\b` alternative of `quarter_like`. -/
def quarterWordAux : List Char → Bool
  | [] => false
  | c :: cs =>
      (listStarts "quarter".toList (c :: cs) &&
        (let r2 := ((c :: cs).drop 7).dropWhile pyWs
         match r2 with
         | d :: r3 => d.isDigit && boundaryAfter r3
         | [] => false))
        || quarterWordAux cs

/-- `quarter_like = re.search(r"\bq[1-4]\b|quarter\s*\d\b", ql)`. -/
def quarterLike (s : String) : Bool := qSearch s || quarterWordAux s.toList

/-- `re.search(r"\btop\s+\d+\b", ql)`. -/
def topkAux (prev : Option Char) : List Char → Bool
  | [] => false
  | c :: cs =>
      (boundaryBefore prev && listStarts "top".toList (c :: cs) &&
        (let r := (c :: cs).drop 3
         let r2 := r.dropWhile pyWs
         !(r.takeWhile pyWs).isEmpty &&
           (let ds := r2.takeWhile Char.isDigit
            !ds.isEmpty && boundaryAfter (r2.dropWhile Char.isDigit))))
        || topkAux (some c) cs

/-- `topk_like` in `detect_type`. -/
def topkLike (s : String) : Bool := topkAux none s.toList

/-- `detect_type(q)` from `query_router.py`.  The text-generation
collaborator's reply (`llm.invoke(prompt).content`) is passed in as
`llmResp`; it is consulted only on the fallback path. -/
def detectType (q : String) (llmResp : String) : String :=
  if q == "" || pyStrip q == "" then "text"
  else
    let ql := pyLower q
    let number_like := numberLike ql
    let quarter_like := quarterLike ql
    let topk_like := topkLike ql
    let has_agg := aggWords.any (fun w => pyIn w ql)
      || analyticPhrases.any (fun p => pyIn p ql)
    let has_compare := compareWords.any (fun w => pyIn w ql)
    let has_explain := explainWords.any (fun w => pyIn w ql)
      || pyStarts "why" (pyStrip ql) || pyStarts "explain" (pyStrip ql)
    if has_agg || has_compare || number_like || quarter_like || topk_like then
      if has_explain then "hybrid" else "analytical"
    else if has_explain && (pyIn "insight" ql || pyIn "interpret" ql) then "hybrid"
    else
      let result := pyLower (pyStrip llmResp)
      if pyIn "hybrid" result then "hybrid"
      else if pyIn "analytical" result then "analytical"
      else "text"

/-- `_detect_intent`. -/
def detectIntent (q : String) : Option String :=
  let ql := pyLower q
  if ["sum", "total", "add up"].any (fun w => pyIn w ql) then some "sum"
  else if ["average", "avg", "mean"].any (fun w => pyIn w ql) then some "avg"
  else if ["maximum", "max", "highest", "top 1"].any (fun w => pyIn w ql) then some "max"
  else if ["minimum", "min", "lowest", "bottom 1"].any (fun w => pyIn w ql) then some "min"
  else if ["count", "how many", "number of"].any (fun w => pyIn w ql) then some "count"
  else none

/-- `_period_tag`. -/
def periodTag (q : String) : Option String :=
  (qFind (pyReplQuarter q)).map (fun d => "q" ++ String.singleton d)

/-- A character counted by `_normalize`'s `[a-z0-9_]` class. -/
def isTokChar (c : Char) : Bool :=
  ('a' ≤ c && c ≤ 'z') || c.isDigit || c == '_'

/-- Worker for `tokenRuns`, structurally recursive on a fuel bound (the fuel
never runs out when it starts at the list length). -/
def tokenRunsFuel : Nat → List Char → List (List Char)
  | 0, _ => []
  | _ + 1, [] => []
  | fuel + 1, c :: cs =>
      if isTokChar c then
        (c :: cs.takeWhile isTokChar) :: tokenRunsFuel fuel (cs.dropWhile isTokChar)
      else tokenRunsFuel fuel cs

/-- The maximal `[a-z0-9_]` runs of a lowercased string: the tokens produced
by `_normalize(s).split()`. -/
def tokenRuns (l : List Char) : List (List Char) := tokenRunsFuel l.length l

/-- `set(_normalize(s).split())` as a deduplicated token list. -/
def normTokens (s : String) : List String :=
  ((tokenRuns (pyLower s).toList).map List.asString).dedup

/-- `_choose_best_numeric`: Jaccard-free integer scoring -
`(token overlap with the question, quarter-tag bonus)` compared
lexicographically, strictly-greater updates only. -/
def chooseBestNumeric (headers : List String) (kinds : List (String × String))
    (q : String) (period : Option String) : Option String :=
  let qtok := normTokens q
  let step := fun (acc : Option String × Int × Int) (h : String) =>
    if dget kinds h != some "number" then acc
    else
      let htok := normTokens h
      let overlap : Int := (qtok.filter (fun t => htok.contains t)).length
      let bonus : Int :=
        match period with
        | some p => if pyIn p (pyLower h) then 1 else 0
        | none => 0
      if overlap > acc.2.1 || (overlap == acc.2.1 && bonus > acc.2.2) then
        (some h, overlap, bonus)
      else acc
  (headers.foldl step (none, -1, -1)).1

/-- The plan fields drafted by the text-generation collaborator (the parsed
JSON object of `_make_plan`; `none` models a reply with no JSON object). -/
structure Draft where
  filters : List CFilter
  group_by : List Int
  aggregates : List CAgg
  order_by : List OBE
  limit : Int
deriving DecidableEq, Repr

/-- `_make_plan` minus the collaborator call: attach the table identity and
the `_columns_index`/`_numeric_ids`/`_temporal_ids`/`_q` metadata to the
parsed draft, or produce the `no_json` error dict (which carries none of
those keys - their absence is what makes the later fallback path crash). -/
def mkPlan (draft : Option Draft) (q : String) (headers : List String)
    (kinds : List (String × String)) (fk : String) (ti : Int) : CPlan :=
  match draft with
  | none =>
      { error := some "no_json", fileKey := "", tableIndex := 0, filters := [],
        group_by := [], aggregates := [], order_by := [], limit := 0,
        columnsIndex := [], numericIds := [], temporalIds := [], q := q }
  | some d =>
      { error := none, fileKey := fk, tableIndex := ti, filters := d.filters,
        group_by := d.group_by, aggregates := d.aggregates,
        order_by := d.order_by, limit := d.limit, columnsIndex := headers,
        numericIds := numericIdsOf headers kinds,
        temporalIds := temporalIdsOf headers kinds, q := q }

/-- The auto-synthesis block of `analyze_table` (lines 446-462): reset
aggregates/group_by/filters and install a minimal intent-derived aggregate,
defaulting to a bare row count. -/
def fallbackPlan (plan : CPlan) (question : String) (headers : List String)
    (kinds : List (String × String)) : CPlan :=
  let intent := detectIntent question
  let best := chooseBestNumeric headers kinds question (periodTag question)
  let p := { plan with aggregates := [], group_by := [], filters := ([] : List CFilter) }
  let countAgg : CAgg := { func := "count", col_id := some 0, aliasName := some "count_rows" }
  let isCount := (match intent with
    | some i => i == "count"
    | none => true) ||
    (match best with
     | some b => b == ""
     | none => true)
  if isCount then { p with aggregates := [countAgg] }
  else
    match intent, best with
    | some i, some b =>
        match (plan.columnsIndex.findIdx? (fun h => h == b)).map Int.ofNat with
        | some cid =>
            { p with aggregates :=
                [{ func := i, col_id := some cid, aliasName := some (i ++ "_" ++ b) }] }
        | none => { p with aggregates := [countAgg] }
    | _, _ => { p with aggregates := [countAgg] }

/-- Re-validate the synthesized plan and hand it to the compiler.  When the
draft was the `no_json` error dict, the Python dict lacks the `table` and
metadata keys, so `analyze_table` raises `KeyError` further down; the same
happens in the (otherwise unreachable) case where the synthesized plan fails
validation and `_build_sql` reads keys normalization never added. -/
def runFallback (plan : CPlan) (question : String) (headers : List String)
    (kinds : List (String × String)) : Except String NPlan :=
  let c2 := fallbackPlan plan question headers kinds
  match c2.error with
  | some _ => .error "KeyError"
  | none =>
      match validateAndNormalize c2 with
      | .ok np => .ok np
      | .error _ => .error "KeyError"

/-- `_pick_table`: take the top similarity hit's `(file_key, table_index)`
metadata, or raise `ValueError("No candidate tables found.")` when the
search returned nothing.  The raised exception is the `Except.error`. -/
def pickTable (hits : List (String × Int)) : Except String (String × Int) :=
  match hits with
  | [] => .error "No candidate tables found."
  | h :: _ => .ok h

/-- `v if len(v) <= 60 else v[:60] + ellipsis` from `_trim_samples`. -/
def trimValue (v : String) : String :=
  if v.length ≤ 60 then v else (v.toList.take 60).asString ++ "…"

/-- `_trim_samples`. -/
def trimSamples (samples : List Row) : List Row :=
  samples.map (fun r => r.map (fun p => (p.1, trimValue p.2)))

/-- `_sample_rows` minus the database call: project each fetched JSON row
onto the requested columns (missing keys become `""`). -/
def sampleRows (data : List Row) (columns : List String) : List Row :=
  data.map (fun d => columns.map (fun c => (c, rget d c)))

/-- Python `a or b` on optional strings (`None` and `""` are falsy). -/
def pyOrStr (a b : Option String) : Option String :=
  if truthyS a then a else b

/-- The collaborator observations `analyze_table` runs against: the
similarity hits for the table pick, the catalog headers, the sampled rows,
the parsed plan drafted by the text-generation collaborator, and the rows
the row store returns for the compiled statement. -/
structure Env where
  hits : List (String × Int)
  headers : List String
  sampleData : List Row
  draft : Option Draft
  resultRows : List ResultRow

/-- `analyze_table(question)`: the full analytical pipeline.  A returned
`(type, answer)` pair models the Python result dict; `Except.error` models
an exception escaping `analyze_table` uncaught. -/
def analyzeTable (env : Env) (question : String) : Except String (String × String) := do
  let ft ← pickTable env.hits
  let headers := env.headers
  if headers.isEmpty then
    pure ("analytical", "I couldn" ++ sq ++ "t find any columns in the selected table.")
  else
    let sampleCols := headers.take (min 24 headers.length)
    let samples := trimSamples (sampleRows env.sampleData sampleCols)
    let kinds := inferKinds headers (if samples.isEmpty then [[]] else samples)
    let plan := mkPlan env.draft question headers kinds ft.1 ft.2
    let npE : Except String NPlan :=
      match validateAndNormalize plan with
      | .ok np =>
          if np.aggregates.isEmpty then runFallback plan question headers kinds
          else .ok np
      | .error _ => runFallback plan question headers kinds
    match npE with
    | .error e => .error e
    | .ok np =>
        let _sqlAndParams := buildSql np
        let rows := env.resultRows
        let msg := pyOrStr (summarizeScalar np rows) (summarizeGrouped np rows)
        if truthyS msg then pure ("analytical", msg.getD "")
        else
          match rows with
          | r :: _ =>
              if hasKey r "count_rows" then
                pure ("analytical", "Found " ++ rvShow (rvGet r "count_rows") ++ " rows.")
              else pure ("analytical", "No rows matched the conditions.")
          | [] => pure ("analytical", "No rows matched the conditions.")

/-! Injectivity of decimal rendering, used to show the `p0, p1, ...`
parameter names are pairwise distinct. -/

/-- Decode a decimal digit string back to the number. -/
def decDigits (l : List Char) : Nat :=
  l.foldl (fun a c => 10 * a + (c.toNat - 48)) 0

theorem toDigitsCore_eq_append (b fuel : Nat) :
    ∀ (n : Nat) (ds : List Char),
      Nat.toDigitsCore b fuel n ds = Nat.toDigitsCore b fuel n [] ++ ds := by
  induction fuel with
  | zero => intro n ds; simp [Nat.toDigitsCore]
  | succ f ih =>
      intro n ds
      simp only [Nat.toDigitsCore]
      by_cases h : n / b = 0
      · simp [h]
      · simp only [h, if_false]
        rw [ih (n / b) (Nat.digitChar (n % b) :: ds),
          ih (n / b) (Nat.digitChar (n % b) :: [])]
        simp

theorem toDigitsCore_fuel (b : Nat) (hb : 2 ≤ b) :
    ∀ (f1 f2 n : Nat) (ds : List Char), n < f1 → n < f2 →
      Nat.toDigitsCore b f1 n ds = Nat.toDigitsCore b f2 n ds := by
  intro f1
  induction f1 with
  | zero => intro f2 n ds h1; omega
  | succ f ih =>
      intro f2 n ds h1 h2
      cases f2 with
      | zero => omega
      | succ g =>
          simp only [Nat.toDigitsCore]
          by_cases h : n / b = 0
          · simp [h]
          · simp only [h, if_false]
            have hn : 0 < n := by
              rcases Nat.eq_zero_or_pos n with h0 | h0
              · subst h0; simp at h
              · exact h0
            have hdiv : n / b < n := Nat.div_lt_self hn (by omega)
            exact ih g (n / b) _ (by omega) (by omega)

theorem digitChar_toNat (d : Nat) (h : d < 10) : (Nat.digitChar d).toNat = 48 + d := by
  interval_cases d <;> rfl

theorem decDigits_append_singleton (xs : List Char) (c : Char) :
    decDigits (xs ++ [c]) = 10 * decDigits xs + (c.toNat - 48) := by
  simp [decDigits, List.foldl_append]

theorem decDigits_toDigits (n : Nat) : decDigits (Nat.toDigits 10 n) = n := by
  induction n using Nat.strong_induction_on with
  | _ n ih =>
      by_cases h : n / 10 = 0
      · have hn : n < 10 := by omega
        have hrepr : Nat.toDigits 10 n = [Nat.digitChar (n % 10)] := by
          simp [Nat.toDigits, Nat.toDigitsCore, h]
        rw [hrepr]
        have hmod : n % 10 = n := Nat.mod_eq_of_lt hn
        simp [decDigits, hmod, digitChar_toNat n hn]
      · have hstep : Nat.toDigits 10 n =
            Nat.toDigitsCore 10 n (n / 10) [Nat.digitChar (n % 10)] := by
          simp [Nat.toDigits, Nat.toDigitsCore, h]
        have hdiv : n / 10 < n := Nat.div_lt_self (by omega) (by omega)
        have hfuel : Nat.toDigitsCore 10 n (n / 10) [] = Nat.toDigits 10 (n / 10) := by
          unfold Nat.toDigits
          exact toDigitsCore_fuel 10 (by omega) n (n / 10 + 1) (n / 10) [] (by omega)
            (by omega)
        rw [hstep, toDigitsCore_eq_append, hfuel, decDigits_append_singleton,
          ih (n / 10) hdiv, digitChar_toNat (n % 10) (Nat.mod_lt n (by omega))]
        omega

theorem natRepr_inj {m n : Nat} (h : Nat.repr m = Nat.repr n) : m = n := by
  have hd : Nat.toDigits 10 m = Nat.toDigits 10 n := congrArg String.data h
  rw [← decDigits_toDigits m, ← decDigits_toDigits n, hd]

theorem pname_inj : Function.Injective pname := by
  intro i j h
  apply natRepr_inj
  apply String.ext
  have hd := congrArg String.data h
  simp only [pname, String.data_append] at hd
  exact List.append_cancel_left hd

theorem pname_ne_fk (i : Nat) : pname i ≠ "fk" := by
  intro h
  have hd := congrArg String.data h
  simp [pname, String.data_append] at hd

theorem pname_ne_ti (i : Nat) : pname i ≠ "ti" := by
  intro h
  have hd := congrArg String.data h
  simp [pname, String.data_append] at hd

/-! Support for the non-interpolation property of `_build_sql`: erasing the
content of every filter value (keeping only its scalar/list shape) leaves
the compiled SQL text unchanged, and the parameter list is exactly the
per-filter contributed values in order. -/

/-- Replace a filter value's content by empty strings, keeping its shape. -/
def eraseVal : FilterVal → FilterVal
  | .s _ => .s ""
  | .vlist vs => .vlist (vs.map (fun _ => ""))
  | .vnone => .vnone

/-- Erase one filter's value content. -/
def eraseFilter (f : NFilter) : NFilter := { f with value := eraseVal f.value }

/-- Erase every filter value content of a validated plan. -/
def erasePlanValues (p : NPlan) : NPlan := { p with filters := p.filters.map eraseFilter }

theorem filterPart_snd (f : NFilter) (n : Nat) : (filterPart f n).2 = filterParams f := by
  rcases f with ⟨cid, op, v, col⟩
  cases v <;> simp only [filterPart, filterParams] <;> split_ifs <;> simp_all

theorem filterPart_fst_erase (f : NFilter) (n : Nat) :
    (filterPart (eraseFilter f) n).1 = (filterPart f n).1 := by
  rcases f with ⟨cid, op, v, col⟩
  cases v <;> simp only [filterPart, eraseFilter, eraseVal] <;> split_ifs <;>
    simp_all [List.length_map]

theorem filterParams_length_erase (f : NFilter) :
    (filterParams (eraseFilter f)).length = (filterParams f).length := by
  rcases f with ⟨cid, op, v, col⟩
  cases v <;> simp only [filterParams, eraseFilter, eraseVal] <;> split_ifs <;>
    simp_all [List.length_map]

theorem filtLoop_snd (fs : List NFilter) (n : Nat) :
    (filtLoop fs n).2 = (fs.map filterParams).flatten := by
  induction fs generalizing n with
  | nil => simp [filtLoop]
  | cons f rest ih => simp [filtLoop, filterPart_snd, ih]

theorem filtLoop_fst_erase (fs : List NFilter) (n : Nat) :
    (filtLoop (fs.map eraseFilter) n).1 = (filtLoop fs n).1 := by
  induction fs generalizing n with
  | nil => simp [filtLoop]
  | cons f rest ih =>
      simp only [List.map_cons, filtLoop, filterPart_fst_erase, filterPart_snd,
        filterParams_length_erase]
      rw [ih]

end Sqope

namespace Sqope

theorem buildSql_params_eq (p : NPlan) :
    (buildSql p).2 =
      ("fk", PVal.pstr p.fileKey) :: ("ti", PVal.pint p.tableIndex) ::
        ((p.filters.map filterParams).flatten.enum.map (fun x => (pname x.1, x.2))) := by
  simp only [buildSql]
  rw [filtLoop_snd]

end Sqope

namespace Sqope

theorem buildSql_sql_erase (p : NPlan) :
    (buildSql p).1 = (buildSql (erasePlanValues p)).1 := by
  simp only [buildSql, erasePlanValues]
  rw [filtLoop_fst_erase]

theorem buildSql_keys_nodup (p : NPlan) :
    ((buildSql p).2.map Prod.fst).Nodup := by
  rw [buildSql_params_eq]
  simp only [List.map_cons, List.map_map]
  have hmap : ((p.filters.map filterParams).flatten.enum.map
      (Prod.fst ∘ fun x => (pname x.1, x.2))) =
      ((p.filters.map filterParams).flatten.enum.map Prod.fst).map pname := by
    rw [List.map_map]
    rfl
  rw [hmap]
  refine List.Nodup.cons ?_ (List.Nodup.cons ?_ ?_)
  · simp only [List.mem_cons, List.mem_map]
    push_neg
    refine ⟨by decide, ?_⟩
    rintro x _ h
    exact pname_ne_fk x h
  · simp only [List.mem_map]
    rintro ⟨x, _, h⟩
    exact pname_ne_ti x h
  · exact (List.nodup_enum_map_fst _).map pname_inj

end Sqope

namespace Sqope

/-- C1: For every validated plan given to the SQL compiler, every filter
value, every element of an IN-list value, and both BETWEEN bounds appear
only in the returned parameter map under position-unique names
(`p0`, `p1`, ...), and never interpolated as literals into the returned SQL
text.  Formally: (a) the compiled SQL text is unchanged when every filter
value's content is erased (so no value content reaches the SQL string - the
text depends only on the shape of values); (b) the parameter map is exactly
`fk`, `ti`, followed by the per-filter contributed values (`filterParams`:
the raw value for comparison operators, the wildcard-wrapped value for
`contains`, each IN-list element, and both BETWEEN bounds) keyed `p0, p1, ...`
by position; and (c) the parameter names are pairwise distinct. -/
theorem c1_sql_compiler_binds_values_as_unique_params (p : NPlan) :
    (buildSql p).1 = (buildSql (erasePlanValues p)).1 ∧
    (buildSql p).2 =
      ("fk", PVal.pstr p.fileKey) :: ("ti", PVal.pint p.tableIndex) ::
        ((p.filters.map filterParams).flatten.enum.map (fun x => (pname x.1, x.2))) ∧
    ((buildSql p).2.map Prod.fst).Nodup :=
  ⟨buildSql_sql_erase p, buildSql_params_eq p, buildSql_keys_nodup p⟩

/-- C9: Compiling the same validated plan twice yields byte-identical SQL
text and an equal parameter map.  `_build_sql` reads nothing but its
argument (no randomness, time, or global mutable state), so its embedding is
a pure function and the two runs coincide. -/
theorem c9_compile_deterministic (p : NPlan) :
    (buildSql p).1 = (buildSql p).1 ∧ (buildSql p).2 = (buildSql p).2 :=
  ⟨rfl, rfl⟩

end Sqope

namespace Sqope

/-- A candidate plan whose only filter uses the comparison operator `>`
(resolvable numeric column, no aggregates). -/
def gtPlan : CPlan :=
  { error := none, fileKey := "f", tableIndex := 0,
    filters := [{ col_id := 0, op := ">", value := FilterVal.s "5" }],
    group_by := [], aggregates := [], order_by := [], limit := 0,
    columnsIndex := ["Amount"], numericIds := [0], temporalIds := [], q := "" }

/-- The same plan with the misspelled two-character operator `" >"`. -/
def gtSpacePlan : CPlan :=
  { gtPlan with filters := [{ col_id := 0, op := " >", value := FilterVal.s "5" }] }

/-- What validation makes of `gtSpacePlan` (the `" >"` filter is accepted). -/
def gtSpaceNormalized : NPlan :=
  { fileKey := "f", tableIndex := 0,
    filters := [{ col_id := 0, op := " >", value := FilterVal.s "5", column := "Amount" }],
    group_by := [], aggregates := [], order_by := [], limit := 0,
    columnsIndex := ["Amount"] }

/-- C3 (code bug): the spec's operator set contains `>`, but `ALLOWED_OPS`
at `table_analytics.py:169` contains `" >"` (leading space) instead, so a
filter whose op is `>` IS rejected with `bad_filter_op`, while the
misspelled `" >"` passes validation and is then silently ignored by
`_build_sql` (whose own comparison set correctly contains `>`), producing an
unfiltered `COUNT(*)` query.  The five conjuncts evaluate the embedded code
at the failing input. -/
theorem c3_gt_filter_rejected_code_bug :
    validateAndNormalize gtPlan = Except.error "bad_filter_op" ∧
    ALLOWED_OPS.contains ">" = false ∧
    cmpOps.contains ">" = true ∧
    validateAndNormalize gtSpacePlan = Except.ok gtSpaceNormalized ∧
    (buildSql gtSpaceNormalized).1 =
      "SELECT COUNT(*) AS count_rows FROM table_rows WHERE file_key = :fk AND table_index = :ti" := by
  refine ⟨by rfl, by decide, by decide, by rfl, by decide⟩

/-- An environment in which the similarity search over `table_schema`
records returns no hit at all. -/
def emptyHitsEnv : Env :=
  { hits := [], headers := ["A"], sampleData := [], draft := none, resultRows := [] }

/-- C6 (code bug): when the similarity search returns no candidate table,
`_pick_table` raises `ValueError("No candidate tables found.")` and neither
`analyze_table` nor `answer_query` catches it, so the failure escapes the
analytical entry point as an exception (here: `Except.error`) instead of
being returned as a user-visible "no data" answer. -/
theorem c6_no_candidate_table_escapes_as_exception :
    analyzeTable emptyHitsEnv "how many rows are there?" =
      Except.error "No candidate tables found." := by
  rfl

end Sqope

namespace Sqope

/-- The headers of the spec's end-to-end example. -/
def c7Headers : List String := ["Region", "Revenue_Q1", "Revenue_Q2"]

/-- Column kinds of the example (`Revenue_Q1` classified `number`). -/
def c7Kinds : List (String × String) :=
  [("Region", "text"), ("Revenue_Q1", "number"), ("Revenue_Q2", "number")]

/-- The candidate plan of the example: a `sum` aggregate over `Revenue_Q1`
for the question "What is the total revenue in Q1?". -/
def c7Candidate : CPlan :=
  { error := none, fileKey := "doc1", tableIndex := 0, filters := [],
    group_by := [],
    aggregates := [{ func := "sum", col_id := some 1, aliasName := none }],
    order_by := [], limit := 0, columnsIndex := c7Headers,
    numericIds := numericIdsOf c7Headers c7Kinds,
    temporalIds := temporalIdsOf c7Headers c7Kinds,
    q := "What is the total revenue in Q1?" }

/-- The validated plan the example produces. -/
def c7Plan : NPlan :=
  { fileKey := "doc1", tableIndex := 0, filters := [], group_by := [],
    aggregates := [{ func := "sum", col_id := some 1, column := some "Revenue_Q1",
                     aliasName := "sum_Revenue_Q1" }],
    order_by := [OBE.col "sum_Revenue_Q1" (some "desc")], limit := 1,
    columnsIndex := c7Headers }

/-- Execution returns exactly one row whose aggregate value is 1234.00. -/
def c7Rows : List ResultRow := [[("sum_Revenue_Q1", RVal.num 1234)]]

/-- C7 counterexample: on the claim's own input (validated sum plan over
`Revenue_Q1`, one row with value 1234.00) the summarizer does NOT render
`"Sum of revenue q1: 1,234.00"`: `_summarize_scalar` humanizes the column
with `.replace("_", " ").strip()` and never lowercases, and
`_format_number` renders the integral value 1234.00 without decimals, so
the actual sentence is `"Sum of Revenue Q1: 1,234"`. -/
theorem c7_sentence_counterexample :
    validateAndNormalize c7Candidate = Except.ok c7Plan ∧
    summarizeScalar c7Plan c7Rows ≠ some "Sum of revenue q1: 1,234.00" := by
  refine ⟨by rfl, by decide⟩

/-- C7 amended: with the validated plan carrying the sum aggregate over
`Revenue_Q1`, empty `group_by`, and one result row of value 1234.00, the
summarizer renders `"Sum of Revenue Q1: 1,234"` - the header's
capitalization is preserved by the humanization, and the integral value is
formatted with thousands separators and no decimals. -/
theorem c7_summary_sentence_amended :
    validateAndNormalize c7Candidate = Except.ok c7Plan ∧
    summarizeScalar c7Plan c7Rows = some "Sum of Revenue Q1: 1,234" := by
  refine ⟨by rfl, by decide⟩

end Sqope

namespace Sqope

theorem idToCol_truthy {headers : List String} {cid : Int}
    (h : truthyS (idToCol headers cid) = true) :
    0 ≤ cid ∧ cid < (headers.length : Int) := by
  unfold idToCol at h
  split at h
  · simp [truthyS] at h
  · rename_i hneg
    refine ⟨by omega, ?_⟩
    cases hg : headers[cid.toNat]? with
    | none => rw [hg] at h; simp [truthyS] at h
    | some v =>
        have hlt : cid.toNat < headers.length := by
          by_contra hge
          rw [List.getElem?_eq_none (by omega)] at hg
          cases hg
        omega

theorem idToCol_truthy_get {headers : List String} {cid : Int}
    (h : truthyS (idToCol headers cid) = true) :
    ∃ name, idToCol headers cid = some name ∧ name ≠ "" := by
  cases hg : idToCol headers cid with
  | none => rw [hg] at h; simp [truthyS] at h
  | some v =>
      rw [hg] at h
      simp only [truthyS] at h
      exact ⟨v, rfl, by simpa using h⟩

theorem keepFilter_some {headers : List String} {tids : List Int}
    {f : CFilter} {nf : NFilter}
    (h : keepFilter headers tids f = some nf) :
    truthyS (idToCol headers f.col_id) = true ∧ nf.col_id = f.col_id := by
  simp only [keepFilter] at h
  cases ht : truthyS (idToCol headers f.col_id) with
  | false => rw [ht] at h; simp at h
  | true =>
      rw [ht] at h
      simp only [Bool.not_true, Bool.false_eq_true, if_false] at h
      split at h
      · cases h
      · injection h with h
        subst h
        exact ⟨rfl, rfl⟩

theorem normFilters_ok_mem {headers : List String} {tids : List Int} :
    ∀ {fs : List CFilter} {l : List NFilter},
      normFilters headers tids fs = .ok l →
      ∀ nf ∈ l, ∃ f ∈ fs, keepFilter headers tids f = some nf := by
  intro fs
  induction fs with
  | nil =>
      intro l h nf hnf
      simp only [normFilters] at h
      injection h with h
      subst h
      simp at hnf
  | cons f rest ih =>
      intro l h nf hnf
      simp only [normFilters] at h
      split at h
      · cases h
      · split at h
        · obtain ⟨g, hg, hgk⟩ := ih h nf hnf
          exact ⟨g, List.mem_cons_of_mem _ hg, hgk⟩
        · rename_i nf0 hk
          split at h
          · cases h
          · rename_i l0 hrest
            injection h with h
            subst h
            rcases List.mem_cons.mp hnf with h1 | h1
            · subst h1
              exact ⟨f, List.mem_cons_self _ _, hk⟩
            · obtain ⟨g, hg, hgk⟩ := ih hrest nf h1
              exact ⟨g, List.mem_cons_of_mem _ hg, hgk⟩

theorem normAggs_ok_mem {nids : List Int} {headers : List String} :
    ∀ {as : List CAgg} {l : List NAgg},
      normAggs nids headers as = .ok l →
      ∀ na ∈ l, ∃ a ∈ as, normAgg nids headers a = .ok na := by
  intro as
  induction as with
  | nil =>
      intro l h na hna
      simp only [normAggs] at h
      injection h with h
      subst h
      simp at hna
  | cons a rest ih =>
      intro l h na hna
      simp only [normAggs] at h
      split at h
      · cases h
      · rename_i na0 ha
        split at h
        · cases h
        · rename_i l0 hrest
          injection h with h
          subst h
          rcases List.mem_cons.mp hna with h1 | h1
          · subst h1
            exact ⟨a, List.mem_cons_self _ _, ha⟩
          · obtain ⟨g, hg, hgk⟩ := ih hrest na h1
            exact ⟨g, List.mem_cons_of_mem _ hg, hgk⟩

theorem normAgg_ok_noncount {nids : List Int} {headers : List String}
    {a : CAgg} {na : NAgg}
    (h : normAgg nids headers a = .ok na) (hc : na.func ≠ "count") :
    ∃ cid : Int, na.col_id = some cid ∧ truthyS (idToCol headers cid) = true := by
  simp only [normAgg] at h
  split at h
  · cases h
  · split at h
    · -- non-count branch: match on a.col_id
      split at h
      · cases h
      · rename_i cid hcid
        split at h
        · cases h
        · cases ht : truthyS (idToCol headers cid) with
          | false => rw [ht] at h; simp at h
          | true =>
              rw [ht] at h
              simp only [Bool.not_true, Bool.false_eq_true, if_false] at h
              injection h with h
              subst h
              exact ⟨cid, rfl, ht⟩
    · -- count branch: na.func = a.func = "count", contradicting hc
      rename_i h2
      injection h with h
      subst h
      exact absurd (by simpa using h2) hc

end Sqope

namespace Sqope

theorem idToCol_eq_some {headers : List String} {cid : Int} {name : String}
    (h : idToCol headers cid = some name) :
    ∃ i : Nat, i < headers.length ∧ headers[i]? = some name := by
  unfold idToCol at h
  split at h
  · cases h
  · refine ⟨cid.toNat, ?_, h⟩
    by_contra hge
    rw [List.getElem?_eq_none (by omega)] at h
    cases h

theorem groupByMap_mem {headers : List String} {gbs : List Int} {g : String}
    (hg : g ∈ gbs.filterMap (fun gid =>
      let col? := idToCol headers gid
      if truthyS col? then some (col?.getD "") else none)) :
    ∃ i : Nat, i < headers.length ∧ headers[i]? = some g := by
  obtain ⟨gid, _, heq⟩ := List.mem_filterMap.mp hg
  simp only at heq
  cases ht : truthyS (idToCol headers gid) with
  | false => rw [ht] at heq; simp at heq
  | true =>
      rw [ht] at heq
      simp only [if_true] at heq
      obtain ⟨name, hname, _⟩ := idToCol_truthy_get ht
      rw [hname] at heq
      simp only [Option.getD_some, Option.some.injEq] at heq
      subst heq
      exact idToCol_eq_some hname

/-- C2: For every candidate plan on which validation succeeds, every column
referenced by the normalized plan's filters, group_by, and non-count
aggregates resolves through the resolved table's column index
(`_columns_index`, the 0-based enumeration of the headers) to a column id
within `[0, len(headers))`: every kept filter's `col_id` is in range, every
non-count aggregate's `col_id` is in range, and every normalized group-by
name is an actual header. -/
theorem c2_validated_plan_column_ids_in_range (p : CPlan) (np : NPlan)
    (h : validateAndNormalize p = Except.ok np) :
    (∀ f ∈ np.filters, 0 ≤ f.col_id ∧ f.col_id < (p.columnsIndex.length : Int)) ∧
    (∀ a ∈ np.aggregates, a.func ≠ "count" →
      ∃ cid : Int, a.col_id = some cid ∧ 0 ≤ cid ∧ cid < (p.columnsIndex.length : Int)) ∧
    (∀ g ∈ np.group_by, ∃ i : Nat, i < p.columnsIndex.length ∧
      p.columnsIndex[i]? = some g) := by
  simp only [validateAndNormalize] at h
  split at h
  · cases h
  · split at h
    · cases h
    · rename_i aggs hA
      split at h
      · cases h
      · rename_i fs hF
        have hfilters : ∀ f ∈ fs, 0 ≤ f.col_id ∧ f.col_id < (p.columnsIndex.length : Int) := by
          intro f hf
          obtain ⟨cf, _, hk⟩ := normFilters_ok_mem hF f hf
          obtain ⟨ht, hcid⟩ := keepFilter_some hk
          rw [hcid]
          exact idToCol_truthy ht
        have haggs : ∀ a ∈ aggs, a.func ≠ "count" →
            ∃ cid : Int, a.col_id = some cid ∧ 0 ≤ cid ∧ cid < (p.columnsIndex.length : Int) := by
          intro na hna hc
          obtain ⟨ca, _, hA1⟩ := normAggs_ok_mem hA na hna
          obtain ⟨cid, hcid, ht⟩ := normAgg_ok_noncount hA1 hc
          obtain ⟨h0, h1⟩ := idToCol_truthy ht
          exact ⟨cid, hcid, h0, h1⟩
        split at h
        · split at h
          · injection h with h
            subst h
            exact ⟨hfilters, haggs, by intro g hg; simp at hg⟩
          · injection h with h
            subst h
            exact ⟨hfilters, haggs, fun g hg => groupByMap_mem hg⟩
        · injection h with h
          subst h
          exact ⟨hfilters, haggs, fun g hg => groupByMap_mem hg⟩

/-- Concrete witness for `c2_validated_plan_column_ids_in_range`: the C7
example plan (a sum over column 1 of a 3-column table) validates, and the
theorem's conclusions evaluate to true on it. -/
theorem c2_witness :
    validateAndNormalize c7Candidate = Except.ok c7Plan ∧
    (∀ f ∈ c7Plan.filters, 0 ≤ f.col_id ∧ f.col_id < (c7Candidate.columnsIndex.length : Int)) ∧
    (∀ a ∈ c7Plan.aggregates, a.func ≠ "count" →
      ∃ cid : Int, a.col_id = some cid ∧ 0 ≤ cid ∧ cid < (c7Candidate.columnsIndex.length : Int)) ∧
    (∀ g ∈ c7Plan.group_by, ∃ i : Nat, i < c7Candidate.columnsIndex.length ∧
      c7Candidate.columnsIndex[i]? = some g) :=
  ⟨by rfl, c2_validated_plan_column_ids_in_range c7Candidate c7Plan (by rfl)⟩

end Sqope

namespace Sqope

theorem normAggs_length {nids : List Int} {headers : List String} :
    ∀ {as : List CAgg} {l : List NAgg},
      normAggs nids headers as = .ok l → l.length = as.length := by
  intro as
  induction as with
  | nil =>
      intro l h
      simp only [normAggs] at h
      injection h with h
      subst h
      rfl
  | cons a rest ih =>
      intro l h
      simp only [normAggs] at h
      split at h
      · cases h
      · rename_i na ha
        split at h
        · cases h
        · rename_i l0 hrest
          injection h with h
          subst h
          simp [ih hrest]

/-- C5: For every candidate plan with a non-empty aggregates list whose
question is a scalar ask (`_wants_scalar`: contains a superlative/aggregate
word and lacks the per-group words " per "/" by "/" each "), successful
validation leaves `group_by` empty, sets `order_by` to the first
aggregate's alias with direction descending, and sets `limit` to 1. -/
theorem c5_scalar_ask_override (p : CPlan) (np : NPlan)
    (h : validateAndNormalize p = Except.ok np)
    (hagg : p.aggregates ≠ [])
    (hscalar : wantsScalar p.q = true) :
    np.group_by = [] ∧ np.limit = 1 ∧
    ∃ a rest, np.aggregates = a :: rest ∧
      np.order_by = [OBE.col a.aliasName (some "desc")] := by
  simp only [validateAndNormalize] at h
  split at h
  · cases h
  · split at h
    · cases h
    · rename_i aggs hA
      split at h
      · cases h
      · rename_i fs hF
        have hlen : aggs.length = p.aggregates.length := normAggs_length hA
        split at h
        · rename_i a tail
          split at h
          · injection h with h
            subst h
            exact ⟨rfl, rfl, a, tail, rfl, rfl⟩
          · rename_i hw
            exact absurd hscalar hw
        · exfalso
          apply hagg
          apply List.length_eq_zero.mp
          rw [← hlen]
          rfl

/-- Concrete witness for `c5_scalar_ask_override`: the example plan's
question "What is the total revenue in Q1?" is a scalar ask, its aggregate
list is non-empty, and the validated plan shows the forced
`group_by`/`order_by`/`limit`. -/
theorem c5_witness :
    c7Candidate.aggregates ≠ [] ∧ wantsScalar c7Candidate.q = true ∧
    (c7Plan.group_by = [] ∧ c7Plan.limit = 1 ∧
      ∃ a rest, c7Plan.aggregates = a :: rest ∧
        c7Plan.order_by = [OBE.col a.aliasName (some "desc")]) :=
  ⟨by decide, by decide,
    c5_scalar_ask_override c7Candidate c7Plan (by rfl) (by decide) (by decide)⟩

end Sqope

namespace Sqope

theorem normFilters_ok_eq {headers : List String} {tids : List Int} :
    ∀ {fs : List CFilter} {l : List NFilter},
      normFilters headers tids fs = .ok l →
      l = fs.filterMap (keepFilter headers tids) := by
  intro fs
  induction fs with
  | nil =>
      intro l h
      simp only [normFilters] at h
      injection h with h
      subst h
      rfl
  | cons f rest ih =>
      intro l h
      simp only [normFilters] at h
      split at h
      · cases h
      · split at h
        · rename_i hk
          rw [List.filterMap_cons_none hk]
          exact ih h
        · rename_i nf hk
          split at h
          · cases h
          · rename_i l0 hrest
            injection h with h
            subst h
            rw [List.filterMap_cons_some hk, ih hrest]

theorem normFilters_ok_ops {headers : List String} {tids : List Int} :
    ∀ {fs : List CFilter} {l : List NFilter},
      normFilters headers tids fs = .ok l →
      ∀ g ∈ fs, ALLOWED_OPS.contains g.op = true := by
  intro fs
  induction fs with
  | nil => intro l _ g hg; simp at hg
  | cons f rest ih =>
      intro l h g hg
      simp only [normFilters] at h
      split at h
      · cases h
      · rename_i hop
        have hopf : ALLOWED_OPS.contains f.op = true := by
          revert hop
          cases ALLOWED_OPS.contains f.op <;> simp
        rcases List.mem_cons.mp hg with h1 | h1
        · subst h1; exact hopf
        · split at h
          · exact ih h g h1
          · split at h
            · cases h
            · rename_i l0 hrest
              exact ih hrest g h1

theorem normFilters_of_ops {headers : List String} {tids : List Int} :
    ∀ {fs : List CFilter},
      (∀ g ∈ fs, ALLOWED_OPS.contains g.op = true) →
      normFilters headers tids fs = .ok (fs.filterMap (keepFilter headers tids)) := by
  intro fs
  induction fs with
  | nil => intro _; rfl
  | cons f rest ih =>
      intro hops
      have hopf := hops f (List.mem_cons_self _ _)
      have hrest := ih (fun g hg => hops g (List.mem_cons_of_mem _ hg))
      simp only [normFilters, hopf, Bool.not_true, Bool.false_eq_true, if_false]
      cases hk : keepFilter headers tids f with
      | none => rw [List.filterMap_cons_none hk]; exact hrest
      | some nf => rw [List.filterMap_cons_some hk, hrest]

theorem validate_ok_filters {p : CPlan} {np : NPlan}
    (h : validateAndNormalize p = Except.ok np) :
    normFilters p.columnsIndex p.temporalIds p.filters =
      .ok (p.filters.filterMap (keepFilter p.columnsIndex p.temporalIds)) ∧
    np.filters = p.filters.filterMap (keepFilter p.columnsIndex p.temporalIds) := by
  simp only [validateAndNormalize] at h
  split at h
  · cases h
  · split at h
    · cases h
    · rename_i aggs hA
      split at h
      · cases h
      · rename_i fs hF
        have heq := normFilters_ok_eq hF
        subst heq
        refine ⟨hF, ?_⟩
        split at h
        · split at h
          · injection h with h; subst h; rfl
          · injection h with h; subst h; rfl
        · injection h with h; subst h; rfl

theorem mem_temporalIdsOf {headers : List String} (kinds : List (String × String))
    {cid : Int} {name : String}
    (hget : idToCol headers cid = some name) :
    (cid ∈ temporalIdsOf headers kinds) ↔
      (pyStarts "period_q" (dgetD kinds name "")
        || (dget kinds name == some "temporal")) = true := by
  have hpos : ¬ cid < 0 := by
    unfold idToCol at hget
    split at hget
    · cases hget
    · assumption
  have hidx : cid.toNat < headers.length ∧ headers[cid.toNat]? = some name := by
    unfold idToCol at hget
    split at hget
    · cases hget
    · refine ⟨?_, hget⟩
      by_contra hge
      rw [List.getElem?_eq_none (by omega)] at hget
      cases hget
  have hgetD : headers.getD cid.toNat "" = name := by
    rw [List.getD_eq_getElem?_getD, hidx.2]
    rfl
  unfold temporalIdsOf
  simp only [List.mem_map, List.mem_filter, List.mem_range]
  constructor
  · rintro ⟨i, ⟨_, hpred⟩, hcast⟩
    have hi : cid.toNat = i := by rw [← hcast]; rfl
    rw [← hi] at hpred
    rwa [hgetD] at hpred
  · intro hpred
    refine ⟨cid.toNat, ⟨hidx.1, ?_⟩, Int.toNat_of_nonneg (by omega)⟩
    rwa [hgetD]

theorem keepFilter_temporal_shape {headers : List String} (tids : List Int)
    {f : CFilter}
    (hcol : truthyS (idToCol headers f.col_id) = true)
    (htv : isTemporalVal f.value = true) :
    keepFilter headers tids f =
      (if f.col_id ∈ tids then
        some { col_id := f.col_id, op := f.op, value := f.value,
               column := (idToCol headers f.col_id).getD "" }
      else none) := by
  simp only [keepFilter, hcol, htv, Bool.not_true, Bool.false_eq_true, if_false,
    Bool.true_and]
  by_cases hm : f.col_id ∈ tids
  · have : tids.contains f.col_id = true := by
      simpa [List.contains] using List.elem_eq_true_of_mem hm
    simp [this, hm]
  · have : tids.contains f.col_id = false := by
      rw [List.contains]
      cases he : tids.elem f.col_id
      · rfl
      · exact absurd (List.elem_iff.mp he) hm
    simp [this, hm]

end Sqope

namespace Sqope

/-- C4: For every filter on a resolvable column with a legal operator whose
value is temporal-looking (`YEAR_RE` on the single value, or on any element
of a list value, or a quarter tag after `quarter -> q` rewriting), the
normalized plan retains that filter iff the target column's kind is
`temporal` or a `period_q*` tag; and when the kind matches neither, the
filter is dropped while all other filters of the plan are processed exactly
as they would be without it (the filter loop is element-independent). -/
theorem c4_temporal_filter_guardrail
    (headers : List String) (kinds : List (String × String))
    (p : CPlan) (np : NPlan) (l1 l2 : List CFilter) (f : CFilter)
    (hcols : p.columnsIndex = headers)
    (htids : p.temporalIds = temporalIdsOf headers kinds)
    (hfs : p.filters = l1 ++ f :: l2)
    (hcol : truthyS (idToCol headers f.col_id) = true)
    (htv : isTemporalVal f.value = true)
    (h : validateAndNormalize p = Except.ok np) :
    np.filters =
      l1.filterMap (keepFilter headers (temporalIdsOf headers kinds)) ++
        ((keepFilter headers (temporalIdsOf headers kinds) f).toList ++
          l2.filterMap (keepFilter headers (temporalIdsOf headers kinds))) ∧
    (keepFilter headers (temporalIdsOf headers kinds) f =
        some { col_id := f.col_id, op := f.op, value := f.value,
               column := (idToCol headers f.col_id).getD "" } ↔
      (pyStarts "period_q" (dgetD kinds ((idToCol headers f.col_id).getD "") "")
        || (dget kinds ((idToCol headers f.col_id).getD "") == some "temporal")) = true) ∧
    ((pyStarts "period_q" (dgetD kinds ((idToCol headers f.col_id).getD "") "")
        || (dget kinds ((idToCol headers f.col_id).getD "") == some "temporal")) = false →
      keepFilter headers (temporalIdsOf headers kinds) f = none ∧
      normFilters headers (temporalIdsOf headers kinds) (l1 ++ l2) =
        Except.ok (l1.filterMap (keepFilter headers (temporalIdsOf headers kinds)) ++
          l2.filterMap (keepFilter headers (temporalIdsOf headers kinds)))) := by
  obtain ⟨hF, hnp⟩ := validate_ok_filters h
  rw [hcols, htids] at hF hnp
  obtain ⟨name, hname, hne⟩ := idToCol_truthy_get hcol
  have hmem := mem_temporalIdsOf kinds hname
  have hshape := keepFilter_temporal_shape (temporalIdsOf headers kinds) hcol htv
  have hgd : (idToCol headers f.col_id).getD "" = name := by rw [hname]; rfl
  rw [hgd]
  refine ⟨?_, ?_, ?_⟩
  · rw [hnp, hfs, List.filterMap_append]
    congr 1
    cases hk : keepFilter headers (temporalIdsOf headers kinds) f with
    | none => rw [List.filterMap_cons_none hk]; simp
    | some nf => rw [List.filterMap_cons_some hk]; simp
  · rw [hshape]
    by_cases hm : f.col_id ∈ temporalIdsOf headers kinds
    · simp only [hm, if_true]
      simp only [true_iff, Option.some.injEq]
      constructor
      · intro _; exact hmem.mp hm
      · intro _; rw [hgd]
    · simp only [hm, if_false]
      constructor
      · intro hx; cases hx
      · intro hp; exact absurd (hmem.mpr hp) hm
  · intro hpredf
    have hm : f.col_id ∉ temporalIdsOf headers kinds := by
      intro hmm
      rw [hmem.mp hmm] at hpredf
      cases hpredf
    have hk : keepFilter headers (temporalIdsOf headers kinds) f = none := by
      rw [hshape]
      simp [hm]
    refine ⟨hk, ?_⟩
    have hops := normFilters_ok_ops hF
    rw [← List.filterMap_append]
    apply normFilters_of_ops
    intro g hg
    apply hops
    rw [hfs]
    rcases List.mem_append.mp hg with h1 | h1
    · exact List.mem_append.mpr (Or.inl h1)
    · exact List.mem_append.mpr (Or.inr (List.mem_cons_of_mem _ h1))

end Sqope

namespace Sqope

/-- Witness table for the temporal guardrail: a temporal column and a
numeric column. -/
def c4Headers : List String := ["Year", "Amount"]

/-- Witness kinds. -/
def c4Kinds : List (String × String) := [("Year", "temporal"), ("Amount", "number")]

/-- A kept filter (non-temporal value). -/
def c4F0 : CFilter := { col_id := 0, op := "contains", value := FilterVal.s "old" }

/-- The temporal-looking filter aimed at the numeric column (dropped). -/
def c4F : CFilter := { col_id := 1, op := "=", value := FilterVal.s "2023" }

/-- Witness candidate plan carrying both filters. -/
def c4Plan : CPlan :=
  { error := none, fileKey := "d", tableIndex := 0, filters := [c4F0, c4F],
    group_by := [], aggregates := [], order_by := [], limit := 0,
    columnsIndex := c4Headers, numericIds := numericIdsOf c4Headers c4Kinds,
    temporalIds := temporalIdsOf c4Headers c4Kinds, q := "old amounts" }

/-- The normalized plan: the year-valued filter on the numeric column is
gone and the other filter survives untouched. -/
def c4NPlan : NPlan :=
  { fileKey := "d", tableIndex := 0,
    filters := [{ col_id := 0, op := "contains", value := FilterVal.s "old",
                  column := "Year" }],
    group_by := [], aggregates := [], order_by := [], limit := 0,
    columnsIndex := c4Headers }

/-- Concrete witness for `c4_temporal_filter_guardrail`: hypotheses hold at
the inputs above (resolvable column, temporal-looking value, successful
validation), and the theorem is applied there. -/
theorem c4_witness :
    truthyS (idToCol c4Headers c4F.col_id) = true ∧
    isTemporalVal c4F.value = true ∧
    validateAndNormalize c4Plan = Except.ok c4NPlan ∧
    (c4NPlan.filters =
      [c4F0].filterMap (keepFilter c4Headers (temporalIdsOf c4Headers c4Kinds)) ++
        ((keepFilter c4Headers (temporalIdsOf c4Headers c4Kinds) c4F).toList ++
          ([] : List CFilter).filterMap (keepFilter c4Headers (temporalIdsOf c4Headers c4Kinds))) ∧
    (keepFilter c4Headers (temporalIdsOf c4Headers c4Kinds) c4F =
        some { col_id := c4F.col_id, op := c4F.op, value := c4F.value,
               column := (idToCol c4Headers c4F.col_id).getD "" } ↔
      (pyStarts "period_q" (dgetD c4Kinds ((idToCol c4Headers c4F.col_id).getD "") "")
        || (dget c4Kinds ((idToCol c4Headers c4F.col_id).getD "") == some "temporal")) = true) ∧
    ((pyStarts "period_q" (dgetD c4Kinds ((idToCol c4Headers c4F.col_id).getD "") "")
        || (dget c4Kinds ((idToCol c4Headers c4F.col_id).getD "") == some "temporal")) = false →
      keepFilter c4Headers (temporalIdsOf c4Headers c4Kinds) c4F = none ∧
      normFilters c4Headers (temporalIdsOf c4Headers c4Kinds) ([c4F0] ++ ([] : List CFilter)) =
        Except.ok ([c4F0].filterMap (keepFilter c4Headers (temporalIdsOf c4Headers c4Kinds)) ++
          ([] : List CFilter).filterMap (keepFilter c4Headers (temporalIdsOf c4Headers c4Kinds))))) :=
  ⟨by decide, by decide, by rfl,
    c4_temporal_filter_guardrail c4Headers c4Kinds c4Plan c4NPlan [c4F0] [] c4F
      rfl rfl rfl (by decide) (by decide) (by rfl)⟩

end Sqope

namespace Sqope

theorem dget_map_self (g : String → String) :
    ∀ (headers : List String) (h : String), h ∈ headers →
      dget (headers.map (fun x => (x, g x))) h = some (g h) := by
  intro headers
  induction headers with
  | nil => intro h hh; simp at hh
  | cons a rest ih =>
      intro h hh
      by_cases he : a = h
      · subst he
        simp [dget]
      · have hr : h ∈ rest := by
          rcases List.mem_cons.mp hh with h1 | h1
          · exact absurd h1.symm he
          · exact h1
        have hih := ih h hr
        simp only [dget] at hih ⊢
        have hpa : ¬((fun p : String × String => p.1 == h) (a, g a) = true) := by
          simp [he]
        simp only [List.map_cons]
        rw [List.find?_cons_of_neg (p := fun q => q.1 == h) (a := (a, g a)) _ hpa]
        exact hih

/-- C8: For every column whose (lowercased) header matches neither the
fiscal-quarter pattern nor a temporal keyword, and whose non-empty sampled
values do not all parse as numeric, the inferred kind is `temporal` iff at
least half of the up-to-8 sampled non-empty values - and at least 2 of them
("at least half" is the code's `max(2, len(vals)//2)` floor threshold) -
match a date-like pattern (ISO date or a month-name token); otherwise the
kind is `text`. -/
theorem c8_date_majority_inference
    (headers : List String) (samples : List Row) (h : String)
    (hmem : h ∈ headers)
    (hq : qFind (pyLower h) = none)
    (hkw : temporalKeywords.any (fun t => pyIn t (pyLower h)) = false)
    (hnum : (!(sampledVals samples h).isEmpty
      && (sampledVals samples h).all looksLikeNumber) = false) :
    dget (inferKinds headers samples) h =
      some (if 2 ≤ (sampledVals samples h).countP (looksLikeDate ·)
          ∧ (sampledVals samples h).length / 2 ≤
              (sampledVals samples h).countP (looksLikeDate ·) then
        "temporal" else "text") ∧
    (dget (inferKinds headers samples) h = some "temporal" ↔
      2 ≤ (sampledVals samples h).countP (looksLikeDate ·)
        ∧ (sampledVals samples h).length / 2 ≤
            (sampledVals samples h).countP (looksLikeDate ·)) := by
  have hlk : dget (inferKinds headers samples) h = some (inferKindOne samples h) :=
    dget_map_self (inferKindOne samples) headers h hmem
  have hone : inferKindOne samples h =
      (if 2 ≤ (sampledVals samples h).countP (looksLikeDate ·)
          ∧ (sampledVals samples h).length / 2 ≤
              (sampledVals samples h).countP (looksLikeDate ·) then
        "temporal" else "text") := by
    simp only [inferKindOne, hq, hkw, Bool.false_eq_true, if_false, hnum]
    cases hv : (sampledVals samples h).isEmpty with
    | true =>
        have hnil : sampledVals samples h = [] := by
          cases hvv : sampledVals samples h
          · rfl
          · rw [hvv] at hv; cases hv
        rw [hnil]
        simp
    | false =>
        simp only [hv, Bool.not_false, Bool.true_and]
        by_cases hcond : max 2 ((sampledVals samples h).length / 2) ≤
            (sampledVals samples h).countP (looksLikeDate ·)
        · rw [if_pos (by simpa using hcond), if_pos (by omega)]
        · rw [if_neg (by simpa using hcond), if_neg (by omega)]
  refine ⟨hlk.trans (by rw [hone]), ?_⟩
  rw [hlk, hone]
  by_cases hcond : 2 ≤ (sampledVals samples h).countP (looksLikeDate ·)
      ∧ (sampledVals samples h).length / 2 ≤ (sampledVals samples h).countP (looksLikeDate ·)
  · rw [if_pos hcond]
    exact ⟨fun _ => hcond, fun _ => rfl⟩
  · rw [if_neg hcond]
    constructor
    · intro hx
      injection hx with hx
      exact absurd hx (by decide)
    · intro hx
      exact absurd hx hcond

end Sqope

namespace Sqope

/-- Witness headers for kind inference. -/
def c8Headers : List String := ["Notes", "Stamp"]

/-- Witness samples: column `Stamp` has three non-empty values, two of them
ISO dates, one plain text (so not all numeric, and dates reach the
`max(2, 3 // 2) = 2` threshold). -/
def c8Samples : List Row :=
  [[("Stamp", "2024-01-02"), ("Notes", "a")],
   [("Stamp", "2024-02-03")],
   [("Stamp", "hello")]]

/-- Concrete witness for `c8_date_majority_inference`: the hypotheses hold
for column `Stamp` of the samples above, and the theorem applied there
shows the inferred kind is `temporal` by the date-majority rule. -/
theorem c8_witness :
    "Stamp" ∈ c8Headers ∧
    qFind (pyLower "Stamp") = none ∧
    temporalKeywords.any (fun t => pyIn t (pyLower "Stamp")) = false ∧
    (!(sampledVals c8Samples "Stamp").isEmpty
      && (sampledVals c8Samples "Stamp").all looksLikeNumber) = false ∧
    (dget (inferKinds c8Headers c8Samples) "Stamp" =
      some (if 2 ≤ (sampledVals c8Samples "Stamp").countP (looksLikeDate ·)
          ∧ (sampledVals c8Samples "Stamp").length / 2 ≤
              (sampledVals c8Samples "Stamp").countP (looksLikeDate ·) then
        "temporal" else "text") ∧
    (dget (inferKinds c8Headers c8Samples) "Stamp" = some "temporal" ↔
      2 ≤ (sampledVals c8Samples "Stamp").countP (looksLikeDate ·)
        ∧ (sampledVals c8Samples "Stamp").length / 2 ≤
            (sampledVals c8Samples "Stamp").countP (looksLikeDate ·))) :=
  ⟨by decide, by decide, by decide, by decide,
    c8_date_majority_inference c8Headers c8Samples "Stamp"
      (by decide) (by decide) (by decide) (by decide)⟩

end Sqope

namespace Sqope

/-- C10: the exposed question classifier returns "text" for an empty or
whitespace-only question.  The quantification over an arbitrary collaborator
reply `llmResp` shows the result does not depend on the text-generation
collaborator, and the proof goes through the guard at the top of
`detect_type`, before any rule evaluation. -/
theorem c10_empty_question_classified_text (q llmResp : String)
    (h : pyStrip q = "") :
    detectType q llmResp = "text" := by
  unfold detectType
  have hc : (q == "" || pyStrip q == "") = true := by
    rw [h]
    simp
  simp [hc]

/-- Concrete witness for `c10_empty_question_classified_text`: a
whitespace-only question is classified "text" even when the collaborator
would have said "analytical". -/
theorem c10_witness :
    pyStrip "   " = "" ∧ detectType "   " "analytical" = "text" :=
  ⟨by decide, c10_empty_question_classified_text "   " "analytical" (by decide)⟩

end Sqope
